import Mathlib

/-!
# Verification of the growth-parameters calculator core

Shallow embedding, in Lean 4, of the calculation / validation /
aggregation core of the growth-parameters-calculator repository
(`app.py`, `calculations.py`, `validation.py`, `models.py`,
`constants.py`).  Python floats are modelled by `ℚ`; Python `None` by
`Option`; Python exceptions by `Except`; `datetime.date` by an explicit
Gregorian `Date` structure mirroring CPython's proleptic Gregorian
calendar; `dateutil.relativedelta` (an external dependency with fixed,
documented semantics) by explicit calendar arithmetic.

Python's `round(x, n)` rounds half to even on binary floats; it is
modelled here by round-half-up on `ℚ` (`Mathlib`'s `round`), which agrees
with it except exactly at representable ties, none of which occur in the
statements proved below.
-/

namespace GrowthCalc

/-! ## Numeric helpers (Python `round(x, 1)` / `round(x, 2)` on `ℚ`) -/

/-- `round(x, 1)`: round to the nearest tenth. -/
def round1 (x : ℚ) : ℚ := (round (10 * x) : ℤ) / 10

/-- `round(x, 2)`: round to the nearest hundredth. -/
def round2 (x : ℚ) : ℚ := (round (100 * x) : ℤ) / 100

/-! ## constants.py -/

def DAYS_PER_YEAR : ℚ := 365.25
def MONTHS_PER_YEAR : ℚ := 12.0
def FULL_TERM_DAYS : ℤ := 280
def DAYS_PER_WEEK : ℚ := 7
def PRETERM_THRESHOLD_WEEKS : ℚ := 37
def MODERATE_PRETERM_THRESHOLD_WEEKS : ℚ := 32
def CORRECTION_AGE_THRESHOLD_MODERATE : ℚ := 1.0
def CORRECTION_AGE_THRESHOLD_EXTREME : ℚ := 2.0
def SDS_HARD_LIMIT : ℚ := 8.0
def SDS_WARNING_LIMIT : ℚ := 4.0
def MIN_WEIGHT_KG : ℚ := 0.1
def MAX_WEIGHT_KG : ℚ := 300.0
def MIN_HEIGHT_CM : ℚ := 10.0
def MAX_HEIGHT_CM : ℚ := 250.0
def MIN_OFC_CM : ℚ := 10.0
def MAX_OFC_CM : ℚ := 100.0
def GH_DOSE_STANDARD : ℚ := 7.0
def WEIGHT_TO_GRAMS : ℚ := 1000

/-! ## calculations.py — `should_apply_gestation_correction`

`gestation_weeks` / `gestation_days` arrive from JSON and may be absent
(`None`, modelled `none`).  Python's `if not gestation_weeks` is a
truthiness test: it is taken when the value is `None` *or* equal to `0`.
`(gestation_days or 0)` likewise maps both `None` and `0` to `0`. -/

def should_apply_gestation_correction
    (gestation_weeks gestation_days : Option ℚ)
    (chronological_age_years : ℚ) : Bool :=
  match gestation_weeks with
  | none => false                  -- `if not gestation_weeks: return False`
  | some w =>
    if w = 0 then false            -- `0` is falsy in Python
    else
      let total_gestation_weeks := w + (gestation_days.getD 0) / DAYS_PER_WEEK
      if total_gestation_weeks ≥ PRETERM_THRESHOLD_WEEKS then false
      else if MODERATE_PRETERM_THRESHOLD_WEEKS ≤ total_gestation_weeks ∧
              total_gestation_weeks < PRETERM_THRESHOLD_WEEKS then
        decide (chronological_age_years ≤ CORRECTION_AGE_THRESHOLD_MODERATE)
      else if total_gestation_weeks < MODERATE_PRETERM_THRESHOLD_WEEKS then
        decide (chronological_age_years ≤ CORRECTION_AGE_THRESHOLD_EXTREME)
      else false

/-! ## calculations.py — `calculate_gh_dose` -/

structure GhDose where
  mg_per_day : ℚ
  mg_m2_week : ℚ
  mcg_kg_day : ℚ
  deriving DecidableEq, Repr

/-- `if not bsa or not weight_kg: return None` is a truthiness test on
floats, i.e. it fires exactly when either argument equals `0`. -/
def calculate_gh_dose (bsa weight_kg : ℚ) : Option GhDose :=
  if bsa = 0 ∨ weight_kg = 0 then none
  else
    let mg_per_week := GH_DOSE_STANDARD * bsa
    let mg_per_day := mg_per_week / DAYS_PER_WEEK
    let mg_per_day_rounded := round1 mg_per_day
    let mg_per_week_actual := mg_per_day_rounded * DAYS_PER_WEEK
    let mg_m2_week_actual := mg_per_week_actual / bsa
    let mcg_per_day := mg_per_day_rounded * WEIGHT_TO_GRAMS
    let mcg_kg_day := mcg_per_day / weight_kg
    some ⟨mg_per_day_rounded, round1 mg_m2_week_actual, round1 mcg_kg_day⟩

/-! ## Dates

`datetime.date` modelled as a proleptic-Gregorian (year, month, day)
triple; `Date.toOrdinal` mirrors CPython's `date.toordinal` (0001-01-01
has ordinal 1); date comparison is lexicographic, as in CPython. -/

structure Date where
  year : ℕ
  month : ℕ
  day : ℕ
  deriving DecidableEq, Repr

def isLeap (y : ℕ) : Bool := y % 4 == 0 && (y % 100 != 0 || y % 400 == 0)

def daysInMonthB (leap : Bool) (m : ℕ) : ℕ :=
  if m = 2 then (if leap then 29 else 28)
  else if m = 4 ∨ m = 6 ∨ m = 9 ∨ m = 11 then 30
  else 31

def daysInMonth (y m : ℕ) : ℕ := daysInMonthB (isLeap y) m

/-- CPython's `_DAYS_BEFORE_MONTH` table (non-leap cumulative days;
extended to 13 so that entry 13 is a plain year's length). -/
def daysBeforeMonthTable (m : ℕ) : ℕ :=
  match m with
  | 1 => 0 | 2 => 31 | 3 => 59 | 4 => 90 | 5 => 120 | 6 => 151 | 7 => 181
  | 8 => 212 | 9 => 243 | 10 => 273 | 11 => 304 | 12 => 334 | 13 => 365
  | _ => 0

def daysBeforeMonthB (leap : Bool) (m : ℕ) : ℕ :=
  daysBeforeMonthTable m + (if 2 < m ∧ leap = true then 1 else 0)

/-- Days in year `y` that precede month `m` (CPython
`_days_before_month`, so `daysBeforeMonth y 1 = 0`). -/
def daysBeforeMonth (y m : ℕ) : ℕ := daysBeforeMonthB (isLeap y) m

/-- Days before January 1 of year `y` (CPython `_days_before_year`). -/
def daysBeforeYear (y : ℕ) : ℕ :=
  let n := y - 1
  365 * n + n / 4 - n / 100 + n / 400

def Date.toOrdinal (d : Date) : ℕ :=
  daysBeforeYear d.year + daysBeforeMonth d.year d.month + d.day

def Date.Valid (d : Date) : Prop :=
  1 ≤ d.year ∧ 1 ≤ d.month ∧ d.month ≤ 12 ∧ 1 ≤ d.day ∧
    d.day ≤ daysInMonth d.year d.month

instance (d : Date) : Decidable d.Valid := by
  unfold Date.Valid; exact inferInstance

def Date.Lt (a b : Date) : Prop :=
  a.year < b.year ∨ (a.year = b.year ∧
    (a.month < b.month ∨ (a.month = b.month ∧ a.day < b.day)))

instance (a b : Date) : Decidable (Date.Lt a b) := by
  unfold Date.Lt; exact inferInstance

def Date.Le (a b : Date) : Prop := Date.Lt a b ∨ a = b

instance (a b : Date) : Decidable (Date.Le a b) := by
  unfold Date.Le; exact inferInstance

/-- `dateutil`'s `relativedelta.__radd__` restricted to a pure month
shift: add `k` months to the (year, month) pair and clamp the day to the
length of the target month. -/
def addMonths (d : Date) (k : ℤ) : Date :=
  let t : ℤ := 12 * (d.year : ℤ) + (d.month : ℤ) - 1 + k
  let y := (t.ediv 12).toNat
  let m := (t.emod 12 + 1).toNat
  ⟨y, m, min d.day (daysInMonth y m)⟩

/-- The month component computed by `relativedelta(d2, d1)`: start from
the raw year/month difference and adjust by one while the shifted base
date overshoots the target (the `dateutil` `while compare(dt1, dtm)`
loop; for valid dates a single adjustment always suffices, since
shifting by one fewer/more month lands in the calendar month adjacent to
the target's month). -/
def relativedelta_months (d1 d2 : Date) : ℤ :=
  let m0 : ℤ := 12 * ((d2.year : ℤ) - d1.year) + ((d2.month : ℤ) - d1.month)
  if Date.Le d1 d2 then
    if Date.Lt d2 (addMonths d1 m0) then m0 - 1 else m0
  else
    if Date.Lt (addMonths d1 m0) d2 then m0 + 1 else m0

/-- `relativedelta(measurement_date, birth_date)` for date (not
datetime) arguments: `(years, months, days)` with months normalised into
years (`dateutil`'s `_fix`, sign-preserving `divmod`), and the day
component taken as the ordinal difference from the month-shifted base
date. -/
def relativedelta (d1 d2 : Date) : ℤ × ℤ × ℤ :=
  let k := relativedelta_months d1 d2
  let days : ℤ := (d2.toOrdinal : ℤ) - ((addMonths d1 k).toOrdinal : ℤ)
  let years := if 0 ≤ k then k.ediv 12 else -((-k).ediv 12)
  let months := if 0 ≤ k then k.emod 12 else -((-k).emod 12)
  (years, months, days)

/-! ## calculations.py — `calculate_age_in_years` -/

def calculate_age_in_years (birth_date measurement_date : Date) :
    ℚ × (ℤ × ℤ × ℤ) :=
  let ymd := relativedelta birth_date measurement_date
  ((ymd.1 : ℚ) + (ymd.2.1 : ℚ) / MONTHS_PER_YEAR + (ymd.2.2 : ℚ) / DAYS_PER_YEAR,
   ymd)

/-! ## Decimal formatting of Python floats in messages

`f-string` rendering of the (already 1- or 2-decimal rounded) values
that appear inside user-visible messages. -/

def pad2 (k : ℕ) : String := if k < 10 then "0" ++ toString k else toString k

/-- Python `f"{x:.2f}"`. -/
def fmt2 (x : ℚ) : String :=
  let n : ℤ := round (100 * x)
  (if n < 0 then "-" else "") ++ toString (n.natAbs / 100) ++ "." ++
    pad2 (n.natAbs % 100)

/-- Python `str(x)` for a float already rounded to one decimal. -/
def fmt1 (x : ℚ) : String :=
  let n : ℤ := round (10 * x)
  (if n < 0 then "-" else "") ++ toString (n.natAbs / 10) ++ "." ++
    toString (n.natAbs % 10)

/-! ## calculations.py — `calculate_height_velocity`

Inputs can be Python `None` (`none` here); the guard
`if not all([current_height, previous_height, current_date,
previous_date])` is a truthiness test, so a height equal to `0` is
treated exactly like an absent one, while a `date` object is always
truthy. -/

structure HVResult where
  value : Option ℚ
  message : Option String
  deriving DecidableEq

def HV_ORDERING_MESSAGE : String :=
  "Previous measurement date must be before current measurement date"

def hvIntervalMessage (months : ℚ) : String :=
  "Height velocity requires at least 4 months between measurements (current interval: "
    ++ fmt1 months ++ " months)"

def calculate_height_velocity
    (current_height previous_height : Option ℚ)
    (current_date previous_date : Option Date) : Option HVResult :=
  match current_height, previous_height, current_date, previous_date with
  | some ch, some ph, some cd, some pd =>
    if ch = 0 ∨ ph = 0 then none    -- falsy height ⇒ `not all([...])`
    else
      let height_diff := ch - ph
      let time_diff_days : ℤ := (cd.toOrdinal : ℤ) - (pd.toOrdinal : ℤ)
      if time_diff_days ≤ 0 then some ⟨none, some HV_ORDERING_MESSAGE⟩
      else if time_diff_days < 122 then
        let months := round1 ((time_diff_days : ℚ) / (30.44 : ℚ))
        some ⟨none, some (hvIntervalMessage months)⟩
      else
        some ⟨some (round1 (height_diff / (time_diff_days : ℚ) * DAYS_PER_YEAR)),
              none⟩
  | _, _, _, _ => none              -- some argument is `None`

/-! ## calculations.py — `calculate_cbnf_bsa`

The cBNF lookup table, written in the same (ascending-key) order as the
Python dict literal, so that `sorted(lookup_table.keys())` is the key
sequence below. -/

def cbnf_table : List (ℚ × ℚ) :=
  [(1, 0.10), (1.5, 0.13), (2, 0.16), (2.5, 0.19), (3, 0.21), (3.5, 0.24),
   (4, 0.26), (4.5, 0.28), (5, 0.30), (5.5, 0.32), (6, 0.34), (6.5, 0.36),
   (7, 0.38), (7.5, 0.40), (8, 0.42), (8.5, 0.44), (9, 0.46), (9.5, 0.47),
   (10, 0.49), (11, 0.53), (12, 0.56), (13, 0.59), (14, 0.62), (15, 0.65),
   (16, 0.68), (17, 0.71), (18, 0.74), (19, 0.77), (20, 0.79), (21, 0.82),
   (22, 0.85), (23, 0.87), (24, 0.90), (25, 0.92), (26, 0.95), (27, 0.97),
   (28, 1.0), (29, 1.0), (30, 1.1), (31, 1.1), (32, 1.1), (33, 1.1),
   (34, 1.1), (35, 1.2), (36, 1.2), (37, 1.2), (38, 1.2), (39, 1.3), (40, 1.3),
   (41, 1.3), (42, 1.3), (43, 1.3), (44, 1.4), (45, 1.4), (46, 1.4),
   (47, 1.4), (48, 1.4), (49, 1.5), (50, 1.5), (51, 1.5), (52, 1.5),
   (53, 1.5), (54, 1.6), (55, 1.6), (56, 1.6), (57, 1.6), (58, 1.6),
   (59, 1.7), (60, 1.7), (61, 1.7), (62, 1.7), (63, 1.7), (64, 1.7),
   (65, 1.8), (66, 1.8), (67, 1.8), (68, 1.8), (69, 1.8), (70, 1.9),
   (71, 1.9), (72, 1.9), (73, 1.9), (74, 1.9), (75, 1.9), (76, 2.0),
   (77, 2.0), (78, 2.0), (79, 2.0), (80, 2.0), (81, 2.0), (82, 2.1),
   (83, 2.1), (84, 2.1), (85, 2.1), (86, 2.1), (87, 2.1), (88, 2.2),
   (89, 2.2), (90, 2.2)]

/-- `if weight_kg in lookup_table: return lookup_table[weight_kg]`. -/
def cbnf_lookup (w : ℚ) : Option ℚ :=
  (cbnf_table.find? (fun p => decide (p.1 = w))).map Prod.snd

/-- Slope-based value at `w` of the segment through points `p` and `q`,
anchored at the lower point: `bsa1 + slope * (weight_kg - w1)`. -/
def segmentAt (p q : ℚ × ℚ) (w : ℚ) : ℚ :=
  p.2 + (q.2 - p.2) / (q.1 - p.1) * (w - p.1)

/-- Same segment anchored at the upper point, as the above-maximum
branch writes it: `bsa2 + slope * (weight_kg - w2)`. -/
def segmentAtUpper (p q : ℚ × ℚ) (w : ℚ) : ℚ :=
  q.2 + (q.2 - p.2) / (q.1 - p.1) * (w - q.1)

/-- The `for i in range(len(weights) - 1)` interpolation loop: find the
two adjacent table entries whose keys bracket `w` strictly. The final
`0` corresponds to the (unreachable, given the bounds checks that guard
the loop) fall-through where Python would leave `bsa` unbound. -/
def interpLoop (w : ℚ) : List (ℚ × ℚ) → ℚ
  | p :: q :: rest =>
    if p.1 < w ∧ w < q.1 then segmentAt p q w else interpLoop w (q :: rest)
  | _ => 0

def calculate_cbnf_bsa (weight_kg : ℚ) : Option ℚ :=
  if weight_kg ≤ 0 then none
  else
    match cbnf_lookup weight_kg with
    | some b => some b
    | none =>
      let t := cbnf_table
      let p0 := t.getD 0 (0, 0)            -- weights[0]
      let p1 := t.getD 1 (0, 0)            -- weights[1]
      let pm := t.getD (t.length - 2) (0, 0)  -- weights[-2]
      let pn := t.getD (t.length - 1) (0, 0)  -- weights[-1]
      if weight_kg < p0.1 then
        some (round2 (segmentAt p0 p1 weight_kg))   -- extrapolate below
      else if weight_kg > pn.1 then
        some (round2 (segmentAtUpper pm pn weight_kg))  -- extrapolate above
      else
        some (round2 (interpLoop weight_kg t))

/-! ## validation.py (numeric path)

The raw JSON values the claims evaluate these on are numeric, so the
`float(...)` coercion step is elided and the argument typed `Option ℚ`
(`None` ↦ `none`). -/

inductive ErrorCode
  | INVALID_DATE_FORMAT | INVALID_DATE_RANGE | MISSING_MEASUREMENT
  | INVALID_WEIGHT | INVALID_HEIGHT | INVALID_OFC | INVALID_GESTATION
  | SDS_OUT_OF_RANGE | CALCULATION_ERROR | INVALID_INPUT
  deriving DecidableEq, Repr

structure ValidationError where
  message : String
  code : ErrorCode
  deriving DecidableEq, Repr

def validate_weight (weight : Option ℚ) : Except ValidationError (Option ℚ) :=
  match weight with
  | none => .ok none
  | some w =>
    if w < MIN_WEIGHT_KG ∨ w > MAX_WEIGHT_KG then
      .error ⟨"Weight must be between 0.1 and 300.0 kg", .INVALID_WEIGHT⟩
    else .ok (some w)

def validate_height (height : Option ℚ) : Except ValidationError (Option ℚ) :=
  match height with
  | none => .ok none
  | some h =>
    if h < MIN_HEIGHT_CM ∨ h > MAX_HEIGHT_CM then
      .error ⟨"Height must be between 10.0 and 250.0 cm", .INVALID_HEIGHT⟩
    else .ok (some h)

def validate_ofc (ofc : Option ℚ) : Except ValidationError (Option ℚ) :=
  match ofc with
  | none => .ok none
  | some c =>
    if c < MIN_OFC_CM ∨ c > MAX_OFC_CM then
      .error ⟨"Head circumference must be between 10.0 and 100.0 cm", .INVALID_OFC⟩
    else .ok (some c)

/-! ## app.py — measurement intake of the `/calculate` handler

Lines 52-61: `weight = float(data['weight']) if data.get('weight') else
None` and the at-least-one-measurement gate.  Raw JSON field values are
modelled by `JVal`; an exception escaping to the handler's outer
`except` is an `Except.error`. -/

inductive JVal
  | num (val : ℚ)
  | str (val : String)
  deriving DecidableEq, Repr

/-- Python truthiness of a JSON scalar. -/
def JVal.truthy : JVal → Bool
  | .num q => q != 0
  | .str s => s != ""

def jtruthy : Option JVal → Bool
  | none => false
  | some v => v.truthy

/-- `float(v)`.  String parsing is not modelled (`none` = raises); the
claims below only evaluate this on numeric inputs. -/
def JVal.toFloat : JVal → Option ℚ
  | .num q => some q
  | .str _ => none

def parse_measurement_field (v : Option JVal) : Except String (Option ℚ) :=
  if jtruthy v then
    match v.bind JVal.toFloat with
    | some q => .ok (some q)
    | none => .error "could not convert string to float"
  else .ok none

def MISSING_MEASUREMENT_ERROR : String :=
  "At least one measurement (weight, height, or OFC) is required."

/-- Python truthiness of a float-or-`None` local. -/
def floatTruthy : Option ℚ → Bool
  | none => false
  | some q => q != 0

def measurement_intake (w h o : Option JVal) :
    Except String (Option ℚ × Option ℚ × Option ℚ) :=
  match parse_measurement_field w with
  | .error e => .error e
  | .ok weight =>
    match parse_measurement_field h with
    | .error e => .error e
    | .ok height =>
      match parse_measurement_field o with
      | .error e => .error e
      | .ok ofc =>
        if ¬ (floatTruthy weight ∨ floatTruthy height ∨ floatTruthy ofc) then
          .error MISSING_MEASUREMENT_ERROR
        else .ok (weight, height, ofc)

/-! ## app.py — SDS safety gate (lines 495-544)

Parameters are the four resolved SDS values (`weight_sds`,
`height_sds`, `bmi_sds`, and — when an OFC measurement exists — the
extracted `ofc_sds`), each `None` when the measurement was absent or its
SDS unavailable. -/

inductive MKind
  | weight | height | bmi | ofc
  deriving DecidableEq, Repr

def MKind.label : MKind → String
  | .weight => "Weight"
  | .height => "Height"
  | .bmi => "BMI"
  | .ofc => "OFC"

def MKind.hardLimit : MKind → ℚ
  | .bmi => 15
  | _ => 8

def errMsg (k : MKind) (s : ℚ) : String :=
  k.label ++ " SDS (" ++ fmt2 s ++ ") exceeds acceptable range (±" ++
    (if k = .bmi then "15" else "8") ++
    " SDS). Please check measurement accuracy."

def warnMsg (k : MKind) (s : ℚ) : String :=
  k.label ++ " SDS (" ++ fmt2 s ++
    ") is very extreme (>±4 SDS). Please verify measurement accuracy and consider remeasuring."

inductive SdsGateResult
  | rejected (error : String)
  | accepted (validation_messages : List String)
  deriving DecidableEq, Repr

def sdsGateOfc (msgs : List String) (ofcSds : Option ℚ) : SdsGateResult :=
  match ofcSds with
  | some s =>
    if 8 < |s| then .rejected (errMsg .ofc s)
    else if 4 < |s| then .accepted (msgs ++ [warnMsg .ofc s])
    else .accepted msgs
  | none => .accepted msgs

def sdsGateBmi (msgs : List String) (bmiSds ofcSds : Option ℚ) : SdsGateResult :=
  match bmiSds with
  | some s =>
    if 15 < |s| then .rejected (errMsg .bmi s)
    else sdsGateOfc (msgs ++ if 4 < |s| then [warnMsg .bmi s] else []) ofcSds
  | none => sdsGateOfc msgs ofcSds

def sdsGateHeight (msgs : List String) (heightSds bmiSds ofcSds : Option ℚ) :
    SdsGateResult :=
  match heightSds with
  | some s =>
    if 8 < |s| then .rejected (errMsg .height s)
    else sdsGateBmi (msgs ++ if 4 < |s| then [warnMsg .height s] else []) bmiSds ofcSds
  | none => sdsGateBmi msgs bmiSds ofcSds

def sdsGate (weightSds heightSds bmiSds ofcSds : Option ℚ) : SdsGateResult :=
  match weightSds with
  | some s =>
    if 8 < |s| then .rejected (errMsg .weight s)
    else sdsGateHeight (if 4 < |s| then [warnMsg .weight s] else [])
      heightSds bmiSds ofcSds
  | none => sdsGateHeight [] heightSds bmiSds ofcSds

/-- The resolved SDS the gate inspects for measurement kind `k`. -/
def resolvedOf (k : MKind) (w h b o : Option ℚ) : Option ℚ :=
  match k with
  | .weight => w
  | .height => h
  | .bmi => b
  | .ofc => o

/-- Whether the resolved SDS of kind `k` exceeds its hard limit. -/
def violB (k : MKind) (s? : Option ℚ) : Bool :=
  match s? with
  | some s => decide (MKind.hardLimit k < |s|)
  | none => false

/-- Some provided SDS exceeds its hard limit. -/
def hardViolB (w h b o : Option ℚ) : Bool :=
  violB .weight w || violB .height h || violB .bmi b || violB .ofc o

/-- The advisory messages one measurement kind contributes. -/
def warnOf (k : MKind) (s? : Option ℚ) : List String :=
  match s? with
  | some s => if 4 < |s| then [warnMsg k s] else []
  | none => []

/-- The full `validation_messages` list accumulated when no hard limit
is hit, in source order weight, height, BMI, OFC. -/
def warnList (w h b o : Option ℚ) : List String :=
  warnOf .weight w ++ warnOf .height h ++ warnOf .bmi b ++ warnOf .ofc o

/-! ## app.py / models.py — centile and SDS fields of the result blocks

`CalcVals` is the `measurement_calculated_values` object the external
growth-reference collaborator returns (only the two consumed keys). -/

structure CalcVals where
  corrected_centile : Option ℚ
  corrected_sds : Option ℚ
  deriving DecidableEq, Repr

/-- app.py line 488: `weight_sds = float(weight_calc['corrected_sds'])
if weight_calc and weight_calc['corrected_sds'] else None` (truthiness:
an SDS of exactly `0` becomes `None`). -/
def extract_sds_pre (calcVals : Option CalcVals) : Option ℚ :=
  match calcVals with
  | some c => if floatTruthy c.corrected_sds then c.corrected_sds else none
  | none => none

/-- Centile field shared by every result block:
`round(float(calc['corrected_centile']), 2) if calc['corrected_centile']
else None` (truthiness: a centile of exactly `0` becomes `None`). -/
def centile_field (calcVals : Option CalcVals) : Option ℚ :=
  match calcVals with
  | some c =>
    match c.corrected_centile with
    | some v => if v ≠ 0 then some (round2 v) else none
    | none => none
  | none => none

/-- SDS field of the main weight/height/BMI blocks (app.py lines
596-611): `round(weight_sds, 2) if weight_sds is not None else None`,
applied to the already-extracted `weight_sds` of line 488. -/
def main_sds_field (calcVals : Option CalcVals) : Option ℚ :=
  match extract_sds_pre calcVals with
  | some s => some (round2 s)
  | none => none

/-- SDS field of the OFC block (app.py lines 527-544): extraction by
truthiness at line 529, then `round(ofc_sds, 2) if ofc_sds else None`. -/
def ofc_sds_field (c : CalcVals) : Option ℚ :=
  let ofc_sds := if floatTruthy c.corrected_sds then c.corrected_sds else none
  match ofc_sds with
  | some s => if s ≠ 0 then some (round2 s) else none
  | none => none

/-- SDS field of the corrected-age blocks (app.py lines 552-587):
`round(float(calc['corrected_sds']), 2) if calc['corrected_sds'] else
None`. -/
def corrected_sds_field (c : CalcVals) : Option ℚ :=
  match c.corrected_sds with
  | some s => if s ≠ 0 then some (round2 s) else none
  | none => none

/-- SDS field of models.py `extract_measurement_result` (line 105):
`round(float(calc['corrected_sds']), 2) if calc['corrected_sds'] is not
None else None` — an `is not None` check, unlike the endpoint. -/
def extract_measurement_result_sds (c : CalcVals) : Option ℚ :=
  match c.corrected_sds with
  | some s => some (round2 s)
  | none => none

/-! ## app.py — previous-measurement height processing (lines 203-237,
286-289).  Only the fields that feed height-velocity selection are
modelled. -/

structure ProcessedPrev where
  date : Date
  height : Option ℚ
  deriving DecidableEq, Repr

/-- `if prev_height:` then `float(prev_height)` — same shape as the main
measurement parse, so `processed_measurement['height']` stays `None`
(and the entry is later filtered out) whenever the raw height is falsy. -/
def processed_prev_height (prev_height : Option JVal) : Except String (Option ℚ) :=
  parse_measurement_field prev_height

/-- Lines 286-289: `[pm for pm in processed_previous_measurements if
pm['height'] is not None]`. -/
def all_height_measurements (pms : List ProcessedPrev) : List ProcessedPrev :=
  pms.filter (fun pm => pm.height.isSome)

/-! # Theorems -/

/-! Numeral normal forms of the decimal-literal constants. -/

theorem MONTHS_PER_YEAR_eq : MONTHS_PER_YEAR = 12 := by
  norm_num [MONTHS_PER_YEAR]

theorem DAYS_PER_YEAR_eq : DAYS_PER_YEAR = 1461 / 4 := by
  norm_num [DAYS_PER_YEAR]

theorem CORR_MOD_eq : CORRECTION_AGE_THRESHOLD_MODERATE = 1 := by
  norm_num [CORRECTION_AGE_THRESHOLD_MODERATE]

theorem CORR_EXT_eq : CORRECTION_AGE_THRESHOLD_EXTREME = 2 := by
  norm_num [CORRECTION_AGE_THRESHOLD_EXTREME]

theorem GH_DOSE_STANDARD_eq : GH_DOSE_STANDARD = 7 := by
  norm_num [GH_DOSE_STANDARD]

/-! ## C3 — gestation-correction policy -/

/-- C3 (counterexample): the claim asserts that for every *provided*
gestation pair the `total < 32` band corrects while age ≤ 2.0; but for
the provided pair (weeks = 0, days = 0) — total = 0 < 32 — at age 1.0
the function returns `false`, because Python's `if not gestation_weeks`
treats a provided `0` like an absent value. -/
theorem gestation_zero_weeks_counterexample :
    should_apply_gestation_correction (some 0) (some 0) 1 = false ∧
      (0 : ℚ) + 0 / 7 < 32 ∧ (1 : ℚ) ≤ 2 := by
  refine ⟨by decide, by norm_num, by norm_num⟩

/-- C3 (amended): `should_apply_gestation_correction` returns `false`
whenever gestation weeks are not provided *or equal 0* (truthiness); for
provided non-zero weeks and total = weeks + days/7 it returns `false`
when total ≥ 37, `true` iff age ≤ 1.0 when 32 ≤ total < 37, and `true`
iff age ≤ 2.0 when total < 32. -/
theorem gestation_correction_policy (w : ℚ) (gd : Option ℚ) (a : ℚ) :
    should_apply_gestation_correction none gd a = false ∧
    should_apply_gestation_correction (some 0) gd a = false ∧
    (w ≠ 0 →
      (37 ≤ w + (gd.getD 0) / 7 →
        should_apply_gestation_correction (some w) gd a = false) ∧
      (32 ≤ w + (gd.getD 0) / 7 → w + (gd.getD 0) / 7 < 37 →
        (should_apply_gestation_correction (some w) gd a = true ↔ a ≤ 1)) ∧
      (w + (gd.getD 0) / 7 < 32 →
        (should_apply_gestation_correction (some w) gd a = true ↔ a ≤ 2))) := by
  refine ⟨rfl, by simp [should_apply_gestation_correction], fun hw => ?_⟩
  have hdef : ∀ x : Bool, should_apply_gestation_correction (some w) gd a = x ↔
      (if 37 ≤ w + gd.getD 0 / 7 then false
       else if 32 ≤ w + gd.getD 0 / 7 ∧ w + gd.getD 0 / 7 < 37 then decide (a ≤ 1)
       else if w + gd.getD 0 / 7 < 32 then decide (a ≤ 2)
       else false) = x := by
    intro x
    simp only [should_apply_gestation_correction, if_neg hw,
      PRETERM_THRESHOLD_WEEKS, MODERATE_PRETERM_THRESHOLD_WEEKS,
      CORR_MOD_eq, CORR_EXT_eq, DAYS_PER_WEEK, ge_iff_le]
  refine ⟨fun h => ?_, fun h1 h2 => ?_, fun h => ?_⟩
  · rw [hdef, if_pos h]
  · rw [hdef, if_neg (not_le.mpr h2), if_pos ⟨h1, h2⟩, decide_eq_true_eq]
  · rw [hdef, if_neg (not_le.mpr (by linarith)),
      if_neg (fun hc => absurd h (not_lt.mpr hc.1)), if_pos h, decide_eq_true_eq]

/-- C3 witness: a 33-week gestation at age 1.0 is corrected. -/
theorem gestation_correction_policy_witness :
    should_apply_gestation_correction (some 33) none 1 = true :=
  (((gestation_correction_policy 33 none 1).2.2 (by norm_num)).2.1
    (by norm_num) (by norm_num)).mpr (by norm_num)

/-! ## C4 — GH dose -/

/-- The one-decimal Python rounding moves a value by at most 1/20. -/
theorem abs_round1_sub (z : ℚ) : |round1 z - z| ≤ 1 / 20 := by
  have h := abs_sub_round (10 * z)
  unfold round1
  have e : ((round (10 * z) : ℤ) : ℚ) / 10 - z =
      (((round (10 * z) : ℤ) : ℚ) - 10 * z) / 10 := by ring
  rw [e, abs_div, abs_of_pos (by norm_num : (0 : ℚ) < 10), div_le_iff₀ (by norm_num),
    abs_sub_comm]
  linarith

/-- C4 (counterexample): at bsa = 1.04 m², weight = 20 kg the returned
`mg_m2_week` is 6.7, which is 0.3 — not within 0.15 — away from 7.0. -/
theorem gh_dose_drift_counterexample :
    (0 : ℚ) < 1.04 ∧ (0 : ℚ) < 20 ∧
      calculate_gh_dose 1.04 20 = some ⟨1, 6.7, 50⟩ ∧
      ¬ |(6.7 : ℚ) - 7.0| ≤ 0.15 := by
  refine ⟨by norm_num, by norm_num, ?_, by rw [abs_sub_comm]; norm_num [abs_of_pos]⟩
  unfold calculate_gh_dose round1
  norm_num [GH_DOSE_STANDARD, DAYS_PER_WEEK, WEIGHT_TO_GRAMS, round_eq]

/-- C4 (amended): for bsa > 0 and weight > 0, `calculate_gh_dose`
returns `mg_per_day = round(7*bsa/7, 1)`, and the back-computed
`mg_m2_week` lies within `7/(20*bsa) + 1/20` of 7.0 (a fixed 0.15 bound
fails: rounding the daily dose to 0.1 mg can move the weekly rate by up
to 0.35/bsa before its own final rounding). -/
theorem gh_dose_spec (bsa weight_kg : ℚ) (hb : 0 < bsa) (hw : 0 < weight_kg) :
    ∃ d : GhDose, calculate_gh_dose bsa weight_kg = some d ∧
      d.mg_per_day = round1 (7 * bsa / 7) ∧
      d.mg_m2_week = round1 (round1 (7 * bsa / 7) * 7 / bsa) ∧
      |d.mg_m2_week - 7| ≤ 7 / (20 * bsa) + 1 / 20 := by
  have hb0 : bsa ≠ 0 := ne_of_gt hb
  have hw0 : weight_kg ≠ 0 := ne_of_gt hw
  refine ⟨_, by unfold calculate_gh_dose; rw [if_neg (by tauto)], ?_, ?_, ?_⟩
  · simp [GH_DOSE_STANDARD_eq, DAYS_PER_WEEK]
  · simp [GH_DOSE_STANDARD_eq, DAYS_PER_WEEK]
  · simp only [GH_DOSE_STANDARD_eq, DAYS_PER_WEEK]
    have hsimp : (7 : ℚ) * bsa / 7 = bsa := by field_simp
    rw [hsimp]
    set r := round1 bsa with hr
    have h1 : |round1 (r * 7 / bsa) - r * 7 / bsa| ≤ 1 / 20 := abs_round1_sub _
    have h2 : |r - bsa| ≤ 1 / 20 := abs_round1_sub bsa
    have h3 : r * 7 / bsa - 7 = 7 * (r - bsa) / bsa := by field_simp; ring
    have h4 : |r * 7 / bsa - 7| ≤ 7 / (20 * bsa) := by
      rw [h3, abs_div, abs_of_pos hb, abs_mul, abs_of_pos (by norm_num : (0:ℚ) < 7),
        div_le_div_iff₀ hb (by positivity)]
      calc 7 * |r - bsa| * (20 * bsa) ≤ 7 * (1 / 20) * (20 * bsa) := by
            have : (0:ℚ) < 20 * bsa := by positivity
            nlinarith [abs_nonneg (r - bsa)]
        _ = 7 * bsa := by ring
    calc |round1 (r * 7 / bsa) - 7|
        ≤ |round1 (r * 7 / bsa) - r * 7 / bsa| + |r * 7 / bsa - 7| := by
          have := abs_sub_abs_le_abs_sub (round1 (r * 7 / bsa) - 7) (r * 7 / bsa - 7)
          calc |round1 (r * 7 / bsa) - 7|
              = |(round1 (r * 7 / bsa) - r * 7 / bsa) + (r * 7 / bsa - 7)| := by ring_nf
            _ ≤ _ := abs_add _ _
      _ ≤ 1 / 20 + 7 / (20 * bsa) := add_le_add h1 h4
      _ = 7 / (20 * bsa) + 1 / 20 := by ring

/-- C4 witness: at bsa = 2 m², weight = 10 kg the dose exists and obeys
the drift bound. -/
theorem gh_dose_spec_witness :
    ∃ d : GhDose, calculate_gh_dose 2 10 = some d ∧
      d.mg_per_day = round1 (7 * 2 / 7) ∧
      d.mg_m2_week = round1 (round1 (7 * 2 / 7) * 7 / 2) ∧
      |d.mg_m2_week - 7| ≤ 7 / (20 * 2) + 1 / 20 :=
  gh_dose_spec 2 10 (by norm_num) (by norm_num)

/-! ## C5 — height velocity -/

/-- C5: for non-zero heights and any two dates, `calculate_height_velocity`
returns the ordering message when the day difference is ≤ 0; the
insufficient-interval message carrying `X = round(days/30.44, 1)` months
when 0 < days < 122; and otherwise the velocity
`round(height_diff/days * 365.25, 1)` with a null message.  The interval
message contains the rendered `X`. -/
theorem height_velocity_spec (ch ph : ℚ) (cd pd : Date)
    (hch : ch ≠ 0) (hph : ph ≠ 0) :
    ((cd.toOrdinal : ℤ) - pd.toOrdinal ≤ 0 →
      calculate_height_velocity (some ch) (some ph) (some cd) (some pd) =
        some ⟨none, some HV_ORDERING_MESSAGE⟩) ∧
    (0 < (cd.toOrdinal : ℤ) - pd.toOrdinal →
      (cd.toOrdinal : ℤ) - pd.toOrdinal < 122 →
      calculate_height_velocity (some ch) (some ph) (some cd) (some pd) =
        some ⟨none, some (hvIntervalMessage
          (round1 ((((cd.toOrdinal : ℤ) - pd.toOrdinal : ℤ) : ℚ) / (30.44 : ℚ))))⟩) ∧
    (122 ≤ (cd.toOrdinal : ℤ) - pd.toOrdinal →
      calculate_height_velocity (some ch) (some ph) (some cd) (some pd) =
        some ⟨some (round1 ((ch - ph) /
          (((cd.toOrdinal : ℤ) - pd.toOrdinal : ℤ) : ℚ) * (365.25 : ℚ))), none⟩) ∧
    (∀ m : ℚ, ∃ pre post, hvIntervalMessage m = pre ++ fmt1 m ++ post) := by
  have hguard : ¬ (ch = 0 ∨ ph = 0) := by tauto
  refine ⟨fun hle => ?_, fun hpos hlt => ?_, fun hge => ?_, fun m => ?_⟩
  · simp only [calculate_height_velocity, if_neg hguard, if_pos hle]
  · simp only [calculate_height_velocity, if_neg hguard, if_neg (not_le.mpr hpos),
      if_pos hlt]
  · simp only [calculate_height_velocity, if_neg hguard,
      if_neg (not_le.mpr (by linarith : (0:ℤ) < (cd.toOrdinal : ℤ) - pd.toOrdinal)),
      if_neg (not_lt.mpr hge), DAYS_PER_YEAR]
  · exact ⟨"Height velocity requires at least 4 months between measurements (current interval: ",
      " months)", by simp [hvIntervalMessage]⟩

/-- C5 witness: heights 110 and 105 cm, dates one leap year apart. -/
theorem height_velocity_spec_witness :
    calculate_height_velocity (some 110) (some 105) (some ⟨2021, 1, 1⟩)
        (some ⟨2020, 1, 1⟩) =
      some ⟨some (round1 ((110 - 105) /
        (((Date.toOrdinal ⟨2021, 1, 1⟩ : ℤ) - Date.toOrdinal ⟨2020, 1, 1⟩ : ℤ) : ℚ)
          * (365.25 : ℚ))), none⟩ :=
  (height_velocity_spec 110 105 ⟨2021, 1, 1⟩ ⟨2020, 1, 1⟩ (by decide)
    (by decide)).2.2.1 (by decide)

/-! ## C2 — measurement range validation at the endpoint -/

/-- C2 (code evaluated at the failing input): `validate_weight` in
validation.py rejects 500 kg with the `InvalidWeight` kind, exactly as
the claim describes — but the `/calculate` intake passes weight = 500
straight through (`.ok`), because the handler never invokes the
validators it imports; the request reaches measurement construction and
centile lookup with the out-of-range value. -/
theorem weight_range_not_enforced_at_endpoint :
    validate_weight (some 500) =
      .error ⟨"Weight must be between 0.1 and 300.0 kg", .INVALID_WEIGHT⟩ ∧
    validate_height (some 500) =
      .error ⟨"Height must be between 10.0 and 250.0 cm", .INVALID_HEIGHT⟩ ∧
    validate_ofc (some 500) =
      .error ⟨"Head circumference must be between 10.0 and 100.0 cm", .INVALID_OFC⟩ ∧
    measurement_intake (some (.num 500)) none none = .ok (some 500, none, none) := by
  refine ⟨?_, ?_, ?_, ?_⟩
  · have h5 : (500 : ℚ) > MAX_WEIGHT_KG := by norm_num [MAX_WEIGHT_KG]
    simp [validate_weight, h5]
  · have h5 : (500 : ℚ) > MAX_HEIGHT_CM := by norm_num [MAX_HEIGHT_CM]
    simp [validate_height, h5]
  · have h5 : (500 : ℚ) > MAX_OFC_CM := by norm_num [MAX_OFC_CM]
    simp [validate_ofc, h5]
  · have hp : parse_measurement_field (some (.num 500)) = .ok (some 500) := by
      have : ((500 : ℚ) != 0) = true := by norm_num
      simp [parse_measurement_field, jtruthy, JVal.truthy, JVal.toFloat, this]
    have hn : parse_measurement_field none = .ok none := by
      simp [parse_measurement_field, jtruthy]
    have h5 : floatTruthy (some 500) = true := by
      simp [floatTruthy]
    simp [measurement_intake, hp, hn, h5, floatTruthy]

/-! ## C9 — falsy measurement values treated as absent -/

/-- C9: at the `/calculate` interface a falsy measurement value (0 or
the empty string) is treated as absent: a request with weight = 0,
height = 0, ofc = 0 fails with the at-least-one-measurement error (and
so does any all-falsy combination); a previous-measurement entry whose
height is 0 gets a `None` processed height and is excluded from
height-velocity selection; and `calculate_height_velocity` returns
`None` outright whenever any height is falsy or any date is `None`. -/
theorem falsy_measurements_treated_as_absent :
    (measurement_intake (some (.num 0)) (some (.num 0)) (some (.num 0)) =
      .error MISSING_MEASUREMENT_ERROR) ∧
    (∀ v1 v2 v3 : Option JVal, jtruthy v1 = false → jtruthy v2 = false →
      jtruthy v3 = false →
      measurement_intake v1 v2 v3 = .error MISSING_MEASUREMENT_ERROR) ∧
    jtruthy (some (.str "")) = false ∧
    processed_prev_height (some (.num 0)) = .ok none ∧
    (∀ (pms : List ProcessedPrev) (pm : ProcessedPrev), pm.height = none →
      pm ∉ all_height_measurements pms) ∧
    (∀ (chv phv : Option ℚ) (cdv pdv : Option Date),
      chv = none ∨ chv = some 0 ∨ phv = none ∨ phv = some 0 ∨
        cdv = none ∨ pdv = none →
      calculate_height_velocity chv phv cdv pdv = none) := by
  have hgen : ∀ v1 v2 v3 : Option JVal, jtruthy v1 = false → jtruthy v2 = false →
      jtruthy v3 = false →
      measurement_intake v1 v2 v3 = .error MISSING_MEASUREMENT_ERROR := by
    intro v1 v2 v3 h1 h2 h3
    have p1 : parse_measurement_field v1 = .ok none := by
      simp [parse_measurement_field, h1]
    have p2 : parse_measurement_field v2 = .ok none := by
      simp [parse_measurement_field, h2]
    have p3 : parse_measurement_field v3 = .ok none := by
      simp [parse_measurement_field, h3]
    simp [measurement_intake, p1, p2, p3, floatTruthy]
  refine ⟨hgen _ _ _ (by decide) (by decide) (by decide), hgen, by decide, ?_, ?_, ?_⟩
  · simp [processed_prev_height, parse_measurement_field, jtruthy, JVal.truthy]
  · intro pms pm hnone hmem
    have := List.of_mem_filter hmem
    simp [hnone] at this
  · intro chv phv cdv pdv hfalsy
    rcases chv with _ | ch
    · simp [calculate_height_velocity]
    rcases phv with _ | ph
    · simp [calculate_height_velocity]
    rcases cdv with _ | cd
    · simp [calculate_height_velocity]
    rcases pdv with _ | pd
    · simp [calculate_height_velocity]
    have hzero : ch = 0 ∨ ph = 0 := by
      rcases hfalsy with h | h | h | h | h | h <;> simp_all
    simp only [calculate_height_velocity]
    rw [if_pos hzero]

/-! ## C10 — zero centile / zero SDS reporting -/

/-- C10 (counterexample): when the collaborator returns an SDS of
exactly 0 (with, say, centile 50), the main weight/height/BMI blocks
report `sds: null`, not `0.0`: the truth-y pre-extraction of app.py
line 488 has already turned the 0 into `None` before the blocks'
`is not None` test runs. -/
theorem sds_zero_main_block_counterexample :
    main_sds_field (some ⟨some 50, some 0⟩) = none ∧
      main_sds_field (some ⟨some 50, some 0⟩) ≠ some 0 := by
  constructor
  · simp [main_sds_field, extract_sds_pre, floatTruthy]
  · simp [main_sds_field, extract_sds_pre, floatTruthy]

/-- C10 (amended): a centile of exactly 0 is reported as null in every
block (truthiness check); an SDS of exactly 0 is reported as null in
*all* endpoint blocks — main weight/height/BMI (whose `is not None`
check receives a value already nulled by the truthiness extraction of
line 488), OFC, and corrected-age — while only models.py's
`extract_measurement_result` (not called by the endpoint) would report
it as `0.0`; a non-zero SDS is reported, rounded to 2 decimals, in each
block. -/
theorem sds_zero_extraction_policy (c : CalcVals) :
    (c.corrected_centile = some 0 → centile_field (some c) = none) ∧
    (c.corrected_sds = some 0 →
      main_sds_field (some c) = none ∧
      ofc_sds_field c = none ∧
      corrected_sds_field c = none ∧
      extract_measurement_result_sds c = some (round2 0)) ∧
    (∀ s : ℚ, c.corrected_sds = some s → s ≠ 0 →
      main_sds_field (some c) = some (round2 s) ∧
      ofc_sds_field c = some (round2 s) ∧
      corrected_sds_field c = some (round2 s)) := by
  refine ⟨fun hc => ?_, fun hs => ?_, fun s hs hnz => ?_⟩
  · simp [centile_field, hc]
  · refine ⟨?_, ?_, ?_, ?_⟩ <;>
      simp [main_sds_field, extract_sds_pre, ofc_sds_field, corrected_sds_field,
        extract_measurement_result_sds, hs, floatTruthy]
  · refine ⟨?_, ?_, ?_⟩ <;>
      simp [main_sds_field, extract_sds_pre, ofc_sds_field, corrected_sds_field,
        hs, hnz, floatTruthy]

/-- C10 witness: collaborator output (centile 0, SDS 0). -/
theorem sds_zero_extraction_policy_witness :
    centile_field (some ⟨some 0, some 0⟩) = none ∧
      main_sds_field (some ⟨some 0, some 0⟩) = none :=
  ⟨(sds_zero_extraction_policy ⟨some 0, some 0⟩).1 rfl,
    ((sds_zero_extraction_policy ⟨some 0, some 0⟩).2.1 rfl).1⟩

/-! ## C1 — SDS safety gate -/

theorem sdsGateOfc_acc (msgs : List String) (o : Option ℚ)
    (h : violB .ofc o = false) :
    sdsGateOfc msgs o = .accepted (msgs ++ warnOf .ofc o) := by
  cases o with
  | none => simp [sdsGateOfc, warnOf]
  | some s =>
    have h8 : ¬ 8 < |s| := by simpa [violB, MKind.hardLimit] using h
    by_cases h4 : 4 < |s|
    · simp [sdsGateOfc, warnOf, if_neg h8, if_pos h4]
    · simp [sdsGateOfc, warnOf, if_neg h8, if_neg h4]

theorem sdsGateOfc_rej (msgs : List String) (s : ℚ) (h : 8 < |s|) :
    sdsGateOfc msgs (some s) = .rejected (errMsg .ofc s) := by
  simp [sdsGateOfc, if_pos h]

theorem sdsGateBmi_step (msgs : List String) (b o : Option ℚ)
    (h : violB .bmi b = false) :
    sdsGateBmi msgs b o = sdsGateOfc (msgs ++ warnOf .bmi b) o := by
  cases b with
  | none => simp [sdsGateBmi, warnOf]
  | some s =>
    have h15 : ¬ 15 < |s| := by simpa [violB, MKind.hardLimit] using h
    by_cases h4 : 4 < |s| <;>
      simp [sdsGateBmi, warnOf, if_neg h15, h4]

theorem sdsGateBmi_rej (msgs : List String) (s : ℚ) (o : Option ℚ)
    (h : 15 < |s|) :
    sdsGateBmi msgs (some s) o = .rejected (errMsg .bmi s) := by
  simp [sdsGateBmi, if_pos h]

theorem sdsGateHeight_step (msgs : List String) (hs b o : Option ℚ)
    (h : violB .height hs = false) :
    sdsGateHeight msgs hs b o = sdsGateBmi (msgs ++ warnOf .height hs) b o := by
  cases hs with
  | none => simp [sdsGateHeight, warnOf]
  | some s =>
    have h8 : ¬ 8 < |s| := by simpa [violB, MKind.hardLimit] using h
    by_cases h4 : 4 < |s| <;>
      simp [sdsGateHeight, warnOf, if_neg h8, h4]

theorem sdsGateHeight_rej (msgs : List String) (s : ℚ) (b o : Option ℚ)
    (h : 8 < |s|) :
    sdsGateHeight msgs (some s) b o = .rejected (errMsg .height s) := by
  simp [sdsGateHeight, if_pos h]

theorem sdsGate_step (w hs b o : Option ℚ) (h : violB .weight w = false) :
    sdsGate w hs b o = sdsGateHeight (warnOf .weight w) hs b o := by
  cases w with
  | none => simp [sdsGate, warnOf]
  | some s =>
    have h8 : ¬ 8 < |s| := by simpa [violB, MKind.hardLimit] using h
    by_cases h4 : 4 < |s| <;>
      simp [sdsGate, warnOf, if_neg h8, h4]

theorem sdsGate_rej (s : ℚ) (hs b o : Option ℚ) (h : 8 < |s|) :
    sdsGate (some s) hs b o = .rejected (errMsg .weight s) := by
  simp [sdsGate, if_pos h]

/-- C1: the endpoint's SDS gate.  (i) When no resolved SDS exceeds its
hard limit (8 for weight/height/OFC, 15 for BMI) — in particular when an
SDS equals the limit exactly — the request is accepted and
`validation_messages` is exactly the list of advisory strings for the
measurements with `4 < |SDS|` (so an SDS of exactly 4.0 contributes no
warning), in source order.  (ii) When some resolved SDS exceeds its hard
limit the request is rejected with the error string for a violating
measurement, even if every other measurement is within limits.
(iii)/(iv) The rejection and warning strings carry the offending SDS
value rendered to two decimals. -/
theorem sds_gate_policy (w h b o : Option ℚ) :
    (hardViolB w h b o = false →
      sdsGate w h b o = .accepted (warnList w h b o)) ∧
    (hardViolB w h b o = true →
      ∃ k s, resolvedOf k w h b o = some s ∧ MKind.hardLimit k < |s| ∧
        sdsGate w h b o = .rejected (errMsg k s)) ∧
    (∀ k s, ∃ pre post, errMsg k s = pre ++ fmt2 s ++ post) ∧
    (∀ k s, ∃ pre post, warnMsg k s = pre ++ fmt2 s ++ post) := by
  refine ⟨fun hno => ?_, fun hyes => ?_, fun k s => ?_, fun k s => ?_⟩
  · have hparts : ((violB .weight w = false ∧ violB .height h = false) ∧
        violB .bmi b = false) ∧ violB .ofc o = false := by
      simpa [hardViolB] using hno
    rw [sdsGate_step _ _ _ _ hparts.1.1.1, sdsGateHeight_step _ _ _ _ hparts.1.1.2,
      sdsGateBmi_step _ _ _ hparts.1.2, sdsGateOfc_acc _ _ hparts.2]
    simp [warnList, List.append_assoc]
  · by_cases hw : violB .weight w = true
    · rcases w with _ | s
      · simp [violB] at hw
      · have h8 : 8 < |s| := by simpa [violB, MKind.hardLimit] using hw
        exact ⟨.weight, s, rfl, by simpa [MKind.hardLimit] using h8,
          sdsGate_rej _ _ _ _ h8⟩
    · have hw' : violB .weight w = false := by simpa using hw
      rw [sdsGate_step _ _ _ _ hw']
      by_cases hh : violB .height h = true
      · rcases h with _ | s
        · simp [violB] at hh
        · have h8 : 8 < |s| := by simpa [violB, MKind.hardLimit] using hh
          exact ⟨.height, s, rfl, by simpa [MKind.hardLimit] using h8,
            sdsGateHeight_rej _ _ _ _ h8⟩
      · have hh' : violB .height h = false := by simpa using hh
        rw [sdsGateHeight_step _ _ _ _ hh']
        by_cases hb : violB .bmi b = true
        · rcases b with _ | s
          · simp [violB] at hb
          · have h15 : 15 < |s| := by simpa [violB, MKind.hardLimit] using hb
            exact ⟨.bmi, s, rfl, by simpa [MKind.hardLimit] using h15,
              sdsGateBmi_rej _ _ _ h15⟩
        · have hb' : violB .bmi b = false := by simpa using hb
          rw [sdsGateBmi_step _ _ _ hb']
          have hov : violB .ofc o = true := by
            have hdisj : violB .weight w = true ∨ violB .height h = true ∨
                violB .bmi b = true ∨ violB .ofc o = true := by
              simpa [hardViolB, Bool.or_eq_true, or_assoc] using hyes
            rcases hdisj with hx | hx | hx | hx
            · exact absurd hx (by simp [hw'])
            · exact absurd hx (by simp [hh'])
            · exact absurd hx (by simp [hb'])
            · exact hx
          rcases o with _ | s
          · simp [violB] at hov
          · have h8 : 8 < |s| := by simpa [violB, MKind.hardLimit] using hov
            exact ⟨.ofc, s, rfl, by simpa [MKind.hardLimit] using h8,
              sdsGateOfc_rej _ _ h8⟩
  · exact ⟨k.label ++ " SDS (", ") exceeds acceptable range (±" ++
      (if k = .bmi then "15" else "8") ++ " SDS). Please check measurement accuracy.",
      by simp [errMsg, String.append_assoc]⟩
  · exact ⟨k.label ++ " SDS (",
      ") is very extreme (>±4 SDS). Please verify measurement accuracy and consider remeasuring.",
      by simp [warnMsg, String.append_assoc]⟩

/-- C1 witness: weight SDS 5 (warning band), height SDS 8 (exactly the
hard limit, not rejected), BMI and OFC absent — accepted with exactly
the two advisory messages. -/
theorem sds_gate_policy_witness :
    sdsGate (some 5) (some 8) none none =
      .accepted (warnList (some 5) (some 8) none none) :=
  (sds_gate_policy (some 5) (some 8) none none).1 (by decide)

/-! ## C6 — cBNF BSA lookup/interpolation -/

/-- Strict order on table entries by weight key. -/
def keyLt (p q : ℚ × ℚ) : Prop := p.1 < q.1

instance : IsTrans (ℚ × ℚ) keyLt := ⟨fun _ _ _ => lt_trans⟩

theorem cbnf_table_chain : List.Chain' keyLt cbnf_table := by
  simp only [cbnf_table, List.chain'_cons, List.chain'_singleton, keyLt]
  norm_num

theorem cbnf_table_pairwise : List.Pairwise keyLt cbnf_table :=
  List.chain'_iff_pairwise.mp cbnf_table_chain

/-- In a strictly key-sorted list, keys are strictly monotone in the index. -/
theorem pairwise_key_mono {l : List (ℚ × ℚ)} (hpw : List.Pairwise keyLt l)
    {i j : ℕ} {p q : ℚ × ℚ} (hi : l.get? i = some p) (hj : l.get? j = some q)
    (hij : i < j) : p.1 < q.1 := by
  rcases List.get?_eq_some.mp hi with ⟨hi', hpi⟩
  rcases List.get?_eq_some.mp hj with ⟨hj', hqj⟩
  have h := List.pairwise_iff_get.mp hpw ⟨i, hi'⟩ ⟨j, hj'⟩ (Fin.mk_lt_mk.mpr hij)
  rw [hpi, hqj] at h
  exact h

theorem cbnf_key_ge_one {p : ℚ × ℚ} (hp : p ∈ cbnf_table) : (1 : ℚ) ≤ p.1 := by
  rcases List.mem_iff_get.mp hp with ⟨⟨j, hj⟩, hpj⟩
  have hget : cbnf_table.get? j = some p := by
    rw [List.get?_eq_get hj, hpj]
  cases j with
  | zero =>
    have hp1 : p = (1, 0.10) := by
      have h0 : cbnf_table.get? 0 = some (1, 0.10) := rfl
      rw [h0] at hget; exact (Option.some_inj.mp hget).symm
    rw [hp1]
  | succ j' =>
    have h0 : cbnf_table.get? 0 = some ((1 : ℚ), (0.10 : ℚ)) := rfl
    have := pairwise_key_mono cbnf_table_pairwise h0 hget (Nat.succ_pos j')
    exact le_of_lt this

theorem cbnf_key_le_ninety {p : ℚ × ℚ} (hp : p ∈ cbnf_table) : p.1 ≤ 90 := by
  rcases List.mem_iff_get.mp hp with ⟨⟨j, hj⟩, hpj⟩
  have hget : cbnf_table.get? j = some p := by
    rw [List.get?_eq_get hj, hpj]
  have hlast : cbnf_table.get? 98 = some ((90 : ℚ), (2.2 : ℚ)) := rfl
  have hlen : cbnf_table.length = 99 := rfl
  rcases lt_or_eq_of_le (Nat.le_of_lt_succ (hlen ▸ hj)) with hlt | heq
  · exact le_of_lt (pairwise_key_mono cbnf_table_pairwise hget hlast hlt)
  · rw [heq] at hget
    rw [hlast] at hget
    rw [← Option.some_inj.mp hget]

/-- `find?` on a strictly key-sorted list locates a member by its key. -/
theorem find?_key_eq {l : List (ℚ × ℚ)} (hpw : List.Pairwise keyLt l)
    {p : ℚ × ℚ} (hp : p ∈ l) :
    l.find? (fun q => decide (q.1 = p.1)) = some p := by
  induction l with
  | nil => cases hp
  | cons a t ih =>
    rcases List.mem_cons.mp hp with rfl | hpt
    · simp [List.find?]
    · have ha : keyLt a p := (List.pairwise_cons.mp hpw).1 p hpt
      have hfalse : decide (a.1 = p.1) = false := by
        simpa [decide_eq_false_iff_not] using ne_of_lt ha
      simp only [List.find?, hfalse]
      exact ih (List.pairwise_cons.mp hpw).2 hpt

theorem cbnf_lookup_entry {p : ℚ × ℚ} (hp : p ∈ cbnf_table) :
    cbnf_lookup p.1 = some p.2 := by
  unfold cbnf_lookup
  rw [find?_key_eq cbnf_table_pairwise hp]
  rfl

theorem cbnf_lookup_eq_none {w : ℚ} (hw : ∀ p ∈ cbnf_table, p.1 ≠ w) :
    cbnf_lookup w = none := by
  unfold cbnf_lookup
  rw [List.find?_eq_none.mpr (fun p hp => by simpa using hw p hp)]
  rfl

/-- The interpolation loop lands on the unique bracketing segment. -/
theorem interpLoop_eq (w : ℚ) :
    ∀ (l : List (ℚ × ℚ)), List.Pairwise keyLt l →
    ∀ (i : ℕ) (p q : ℚ × ℚ), l.get? i = some p → l.get? (i + 1) = some q →
    p.1 < w → w < q.1 → interpLoop w l = segmentAt p q w := by
  intro l
  induction l with
  | nil => intro _ i p q hi _ _ _; simp at hi
  | cons a t ih =>
    intro hpw i p q hi hq hlt hgt
    cases t with
    | nil =>
      cases i <;> simp at hq
    | cons b t' =>
      cases i with
      | zero =>
        have hpa : a = p := by simpa using hi
        have hqb : b = q := by simpa using hq
        subst hpa; subst hqb
        simp only [interpLoop]
        rw [if_pos ⟨hlt, hgt⟩]
      | succ j =>
        have hpj : (b :: t').get? j = some p := by simpa using hi
        have hqj : (b :: t').get? (j + 1) = some q := by simpa using hq
        have hble : b.1 ≤ p.1 := by
          cases j with
          | zero =>
            have : b = p := by simpa using hpj
            rw [this]
          | succ j' =>
            have hb0 : (b :: t').get? 0 = some b := rfl
            exact le_of_lt (pairwise_key_mono (List.pairwise_cons.mp hpw).2
              hb0 hpj (Nat.succ_pos j'))
        have hcond : ¬ (a.1 < w ∧ w < b.1) := fun hc =>
          absurd (lt_of_lt_of_le hc.2 hble) (not_lt.mpr (le_of_lt hlt))
        simp only [interpLoop]
        rw [if_neg hcond]
        exact ih (List.pairwise_cons.mp hpw).2 j p q hpj hqj hlt hgt

/-- C6: `calculate_cbnf_bsa` returns the tabulated value on an exact
table key (in particular 0.49 at 10 kg); for a weight strictly between
two adjacent table keys it returns the linear interpolation of the two
bracketing entries rounded to 2 decimals (in particular the value at
10.5 kg lies strictly between the values at 10 and 11 kg); and for a
weight in (0, 1) or above 90 it returns the linear extrapolation from
the nearest two table points rounded to 2 decimals. -/
theorem cbnf_bsa_spec :
    (∀ p ∈ cbnf_table, calculate_cbnf_bsa p.1 = some p.2) ∧
    (∀ (i : ℕ) (p q : ℚ × ℚ) (w : ℚ), cbnf_table.get? i = some p →
      cbnf_table.get? (i + 1) = some q → p.1 < w → w < q.1 →
      calculate_cbnf_bsa w = some (round2 (segmentAt p q w))) ∧
    (∀ w : ℚ, 0 < w → w < 1 →
      calculate_cbnf_bsa w = some (round2 (segmentAt (1, 0.10) (1.5, 0.13) w))) ∧
    (∀ w : ℚ, 90 < w →
      calculate_cbnf_bsa w = some (round2 (segmentAtUpper (89, 2.2) (90, 2.2) w))) ∧
    calculate_cbnf_bsa 10 = some 0.49 ∧
    (∃ a b c : ℚ, calculate_cbnf_bsa 10 = some a ∧
      calculate_cbnf_bsa (10.5) = some b ∧ calculate_cbnf_bsa 11 = some c ∧
      a < b ∧ b < c) := by
  have hp0 : cbnf_table.getD 0 (0, 0) = ((1 : ℚ), (0.10 : ℚ)) := rfl
  have hp1 : cbnf_table.getD 1 (0, 0) = ((1.5 : ℚ), (0.13 : ℚ)) := rfl
  have hpm : cbnf_table.getD (cbnf_table.length - 2) (0, 0) =
    ((89 : ℚ), (2.2 : ℚ)) := rfl
  have hpn : cbnf_table.getD (cbnf_table.length - 1) (0, 0) =
    ((90 : ℚ), (2.2 : ℚ)) := rfl
  have exact_hit : ∀ p ∈ cbnf_table, calculate_cbnf_bsa p.1 = some p.2 := by
    intro p hp
    have h1 : (1 : ℚ) ≤ p.1 := cbnf_key_ge_one hp
    unfold calculate_cbnf_bsa
    rw [if_neg (not_le.mpr (by linarith)), cbnf_lookup_entry hp]
  have interp : ∀ (i : ℕ) (p q : ℚ × ℚ) (w : ℚ), cbnf_table.get? i = some p →
      cbnf_table.get? (i + 1) = some q → p.1 < w → w < q.1 →
      calculate_cbnf_bsa w = some (round2 (segmentAt p q w)) := by
    intro i p q w hi hq hlt hgt
    have hpmem : p ∈ cbnf_table := List.get?_mem hi
    have hqmem : q ∈ cbnf_table := List.get?_mem hq
    have hp1' : (1 : ℚ) ≤ p.1 := cbnf_key_ge_one hpmem
    have hq90 : q.1 ≤ 90 := cbnf_key_le_ninety hqmem
    have hw0 : 0 < w := by linarith
    have hnone : cbnf_lookup w = none := by
      apply cbnf_lookup_eq_none
      intro r hr
      rcases List.mem_iff_get.mp hr with ⟨⟨j, hj⟩, hrj⟩
      have hget : cbnf_table.get? j = some r := by
        rw [List.get?_eq_get hj, hrj]
      rcases lt_or_le j (i + 1) with hji | hji
      · -- j ≤ i: r.1 ≤ p.1 < w
        rcases lt_or_eq_of_le (Nat.lt_succ_iff.mp hji) with hlt' | heq
        · exact ne_of_lt (lt_trans (pairwise_key_mono cbnf_table_pairwise
            hget hi hlt') hlt)
        · rw [heq, hi] at hget
          rw [← Option.some_inj.mp hget]
          exact ne_of_lt hlt
      · -- j ≥ i+1: w < q.1 ≤ r.1
        rcases lt_or_eq_of_le hji with hlt' | heq
        · exact (ne_of_lt (lt_trans hgt (pairwise_key_mono cbnf_table_pairwise
            hq hget hlt'))).symm
        · rw [← heq, hq] at hget
          rw [← Option.some_inj.mp hget]
          exact (ne_of_lt hgt).symm
    unfold calculate_cbnf_bsa
    rw [if_neg (not_le.mpr hw0), hnone]
    simp only [hp0, hp1, hpm, hpn]
    rw [if_neg (not_lt.mpr (by linarith : (1 : ℚ) ≤ w))]
    rw [if_neg (not_lt.mpr (by linarith : w ≤ 90))]
    rw [interpLoop_eq w cbnf_table cbnf_table_pairwise i p q hi hq hlt hgt]
  have extrap_low : ∀ w : ℚ, 0 < w → w < 1 →
      calculate_cbnf_bsa w = some (round2 (segmentAt (1, 0.10) (1.5, 0.13) w)) := by
    intro w hw0 hw1
    have hnone : cbnf_lookup w = none := by
      apply cbnf_lookup_eq_none
      intro r hr
      exact ne_of_gt (lt_of_lt_of_le hw1 (cbnf_key_ge_one hr))
    unfold calculate_cbnf_bsa
    rw [if_neg (not_le.mpr hw0), hnone]
    simp only [hp0, hp1, hpm, hpn]
    rw [if_pos (by exact_mod_cast hw1)]
  have extrap_high : ∀ w : ℚ, 90 < w →
      calculate_cbnf_bsa w =
        some (round2 (segmentAtUpper (89, 2.2) (90, 2.2) w)) := by
    intro w hw90
    have hnone : cbnf_lookup w = none := by
      apply cbnf_lookup_eq_none
      intro r hr
      exact ne_of_lt (lt_of_le_of_lt (cbnf_key_le_ninety hr) hw90)
    unfold calculate_cbnf_bsa
    rw [if_neg (not_le.mpr (by linarith)), hnone]
    simp only [hp0, hp1, hpm, hpn]
    rw [if_neg (not_lt.mpr (by linarith : (1 : ℚ) ≤ w))]
    rw [if_pos (by exact_mod_cast hw90)]
  have hten : calculate_cbnf_bsa 10 = some 0.49 := by
    have := exact_hit ((10 : ℚ), (0.49 : ℚ)) (by simp [cbnf_table])
    simpa using this
  refine ⟨exact_hit, interp, extrap_low, extrap_high, hten, ?_⟩
  have heleven : calculate_cbnf_bsa 11 = some 0.53 := by
    have := exact_hit ((11 : ℚ), (0.53 : ℚ)) (by simp [cbnf_table])
    simpa using this
  have hmid : calculate_cbnf_bsa (10.5) =
      some (round2 (segmentAt (10, 0.49) (11, 0.53) (10.5))) := by
    have hi : cbnf_table.get? 18 = some ((10 : ℚ), (0.49 : ℚ)) := rfl
    have hq : cbnf_table.get? 19 = some ((11 : ℚ), (0.53 : ℚ)) := rfl
    have := interp 18 (10, 0.49) (11, 0.53) (10.5) hi hq (by norm_num) (by norm_num)
    simpa using this
  have hmidval : round2 (segmentAt (10, 0.49) (11, 0.53) (10.5)) = 0.51 := by
    norm_num [segmentAt, round2, round_eq]
  exact ⟨0.49, 0.51, 0.53, hten, by rw [hmid, hmidval], heleven,
    by norm_num, by norm_num⟩

/-- C6 witness: an exact table hit (2 kg ↦ 0.16 m²) and an
above-maximum extrapolation (at 100 kg). -/
theorem cbnf_bsa_spec_witness :
    calculate_cbnf_bsa 2 = some 0.16 ∧
      calculate_cbnf_bsa 100 =
        some (round2 (segmentAtUpper (89, 2.2) (90, 2.2) 100)) :=
  ⟨by simpa using cbnf_bsa_spec.1 ((2 : ℚ), (0.16 : ℚ)) (by simp [cbnf_table]),
    cbnf_bsa_spec.2.2.2.1 100 (by norm_num)⟩

/-! ## C7 — calendar age: auxiliary date lemmas -/

/-- Absolute month index of a date (year 0 = index of its January is 1). -/
def mi (d : Date) : ℤ := 12 * (d.year : ℤ) + d.month

theorem isLeap_iff (y : ℕ) :
    isLeap y = true ↔ (y % 4 = 0 ∧ (y % 100 ≠ 0 ∨ y % 400 = 0)) := by
  simp [isLeap, Bool.and_eq_true, Bool.or_eq_true, beq_iff_eq, bne_iff_ne]

theorem daysInMonth_pos (y m : ℕ) : 1 ≤ daysInMonth y m := by
  unfold daysInMonth daysInMonthB
  split
  · split <;> norm_num
  · split <;> norm_num

/-- The Euclidean quotient/remainder facts `omega` needs for a base-12
split of an integer. -/
theorem ediv_emod_12 (t : ℤ) :
    12 * t.ediv 12 + t.emod 12 = t ∧ 0 ≤ t.emod 12 ∧ t.emod 12 < 12 :=
  ⟨Int.ediv_add_emod t 12, Int.emod_nonneg t (by norm_num),
    Int.emod_lt_of_pos t (by norm_num)⟩

theorem addMonths_mi (d : Date) (k : ℤ)
    (ht : 0 ≤ 12 * (d.year : ℤ) + d.month - 1 + k) :
    mi (addMonths d k) = mi d + k := by
  have hf := ediv_emod_12 (12 * (d.year : ℤ) + d.month - 1 + k)
  simp only [addMonths, mi]
  omega

theorem addMonths_valid (d : Date) (k : ℤ) (hv : d.Valid)
    (ht : 12 ≤ 12 * (d.year : ℤ) + d.month - 1 + k) :
    (addMonths d k).Valid := by
  obtain ⟨hy, hm1, hm12, hd1, _⟩ := hv
  have hf := ediv_emod_12 (12 * (d.year : ℤ) + d.month - 1 + k)
  refine ⟨?_, ?_, ?_, ?_, ?_⟩
  · simp only [addMonths]; omega
  · simp only [addMonths]
    have := daysInMonth_pos (((12 * (d.year : ℤ) + d.month - 1 + k).ediv 12).toNat)
      (((12 * (d.year : ℤ) + d.month - 1 + k).emod 12 + 1).toNat)
    omega
  · simp only [addMonths]; omega
  · simp only [addMonths]
    have := daysInMonth_pos (((12 * (d.year : ℤ) + d.month - 1 + k).ediv 12).toNat)
      (((12 * (d.year : ℤ) + d.month - 1 + k).emod 12 + 1).toNat)
    omega
  · simp only [addMonths]
    exact min_le_right _ _

theorem addMonths_zero (d : Date) (hv : d.Valid) : addMonths d 0 = d := by
  obtain ⟨hy, hm1, hm12, hd1, hdm⟩ := hv
  have hf := ediv_emod_12 (12 * (d.year : ℤ) + d.month - 1 + 0)
  have he : (12 * (d.year : ℤ) + d.month - 1 + 0).ediv 12 = (d.year : ℤ) ∧
      (12 * (d.year : ℤ) + d.month - 1 + 0).emod 12 + 1 = (d.month : ℤ) := by
    constructor <;> omega
  simp only [addMonths, he.1, he.2, Int.toNat_natCast]
  cases d with
  | mk y m dd =>
    simp only [Date.mk.injEq, true_and]
    exact Nat.min_eq_left hdm

theorem mi_le_of_lt {a b : Date} (ha : a.Valid) (hb : b.Valid)
    (h : Date.Lt a b) : mi a ≤ mi b := by
  obtain ⟨_, ham1, ham12, _, _⟩ := ha
  obtain ⟨_, hbm1, hbm12, _, _⟩ := hb
  unfold Date.Lt at h
  unfold mi
  omega

theorem lt_of_mi_lt {a b : Date} (ha : a.Valid) (hb : b.Valid)
    (h : mi a < mi b) : Date.Lt a b := by
  obtain ⟨_, ham1, ham12, _, _⟩ := ha
  obtain ⟨_, hbm1, hbm12, _, _⟩ := hb
  unfold mi at h
  unfold Date.Lt
  omega

theorem date_trichotomy (a b : Date) : Date.Lt a b ∨ a = b ∨ Date.Lt b a := by
  cases a with
  | mk ay am ad =>
    cases b with
    | mk by' bm bd =>
      simp only [Date.Lt, Date.mk.injEq]
      omega

theorem mi_le_of_le {a b : Date} (ha : a.Valid) (hb : b.Valid)
    (h : Date.Le a b) : mi a ≤ mi b := by
  rcases h with h | rfl
  · exact mi_le_of_lt ha hb h
  · exact le_refl _

theorem dBMB_succ : ∀ (l : Bool), ∀ m, m < 13 → 1 ≤ m →
    daysBeforeMonthB l (m + 1) = daysBeforeMonthB l m + daysInMonthB l m := by
  decide

theorem dBMB_mono : ∀ (l : Bool), ∀ m', m' < 14 → ∀ m, m < 14 → m ≤ m' →
    daysBeforeMonthB l m ≤ daysBeforeMonthB l m' := by
  decide

theorem dBMB_13 : ∀ l : Bool, daysBeforeMonthB l 13 = if l then 366 else 365 := by
  decide

theorem daysBeforeMonth_succ (y m : ℕ) (h1 : 1 ≤ m) (h12 : m ≤ 12) :
    daysBeforeMonth y (m + 1) = daysBeforeMonth y m + daysInMonth y m :=
  dBMB_succ (isLeap y) m (by omega) h1

theorem daysBeforeMonth_mono (y : ℕ) {m m' : ℕ} (h : m ≤ m') (h13 : m' ≤ 13) :
    daysBeforeMonth y m ≤ daysBeforeMonth y m' :=
  dBMB_mono (isLeap y) m' (by omega) m (by omega) h

/-- The days of a full year: 366 in a leap year, 365 otherwise. -/
theorem daysBeforeMonth_thirteen (y : ℕ) :
    daysBeforeMonth y 13 = if isLeap y then 366 else 365 :=
  dBMB_13 (isLeap y)

theorem daysBeforeYear_succ (y : ℕ) (hy : 1 ≤ y) :
    daysBeforeYear (y + 1) = daysBeforeYear y + (if isLeap y then 366 else 365) := by
  obtain ⟨n, rfl⟩ : ∃ n, y = n + 1 := ⟨y - 1, by omega⟩
  have e4 := Nat.succ_div n 4
  have e100 := Nat.succ_div n 100
  have e400 := Nat.succ_div n 400
  simp only [daysBeforeYear, Nat.add_sub_cancel]
  by_cases h4 : 4 ∣ n + 1 <;> by_cases h100 : 100 ∣ n + 1 <;>
    by_cases h400 : 400 ∣ n + 1 <;>
  · first
      | rw [if_pos h4] at e4 | rw [if_neg h4] at e4
    first
      | rw [if_pos h100] at e100 | rw [if_neg h100] at e100
    first
      | rw [if_pos h400] at e400 | rw [if_neg h400] at e400
    cases hb : isLeap (n + 1) with
    | false =>
      have hp : ¬ ((n + 1) % 4 = 0 ∧ ((n + 1) % 100 ≠ 0 ∨ (n + 1) % 400 = 0)) :=
        fun hc => by rw [(isLeap_iff (n + 1)).mpr hc] at hb; cases hb
      rw [if_neg (by simp : ¬ ((false : Bool) = true))]
      omega
    | true =>
      have hp := (isLeap_iff (n + 1)).mp hb
      rw [if_pos (rfl : (true : Bool) = true)]
      omega

theorem daysBeforeYear_mono {y y' : ℕ} (hy : 1 ≤ y) (h : y ≤ y') :
    daysBeforeYear y ≤ daysBeforeYear y' := by
  rcases Nat.exists_eq_add_of_le h with ⟨k, rfl⟩
  clear h
  induction k with
  | zero => exact le_refl _
  | succ k ih =>
    have hs := daysBeforeYear_succ (y + k) (by omega)
    have ha : y + (k + 1) = (y + k) + 1 := by omega
    rw [ha, hs]
    revert ih
    split <;> omega

/-- Within a valid date, the ordinal stays inside its year's span. -/
theorem toOrdinal_year_bounds {a : Date} (ha : a.Valid) :
    daysBeforeYear a.year < a.toOrdinal ∧
      a.toOrdinal ≤ daysBeforeYear (a.year + 1) := by
  obtain ⟨hy, hm1, hm12, hd1, hdm⟩ := ha
  constructor
  · unfold Date.toOrdinal
    omega
  · unfold Date.toOrdinal
    have h1 : daysBeforeMonth a.year a.month + a.day ≤
        daysBeforeMonth a.year (a.month + 1) := by
      rw [daysBeforeMonth_succ a.year a.month hm1 hm12]; omega
    have h2 : daysBeforeMonth a.year (a.month + 1) ≤ daysBeforeMonth a.year 13 :=
      daysBeforeMonth_mono a.year (by omega) (by omega)
    have h3 := daysBeforeMonth_thirteen a.year
    have h4 := daysBeforeYear_succ a.year hy
    cases hleap : isLeap a.year <;> simp [hleap] at h3 h4 <;> omega

/-- Lexicographic date order agrees with the CPython ordinal. -/
theorem toOrdinal_lt_of_lt {a b : Date} (ha : a.Valid) (hb : b.Valid)
    (h : Date.Lt a b) : a.toOrdinal < b.toOrdinal := by
  rcases h with hyr | ⟨hyeq, hmo | ⟨hmeq, hday⟩⟩
  · -- a.year < b.year
    have h1 := (toOrdinal_year_bounds ha).2
    have h2 := (toOrdinal_year_bounds hb).1
    have h3 : daysBeforeYear (a.year + 1) ≤ daysBeforeYear b.year :=
      daysBeforeYear_mono (by omega : 1 ≤ a.year + 1) hyr
    omega
  · -- same year, a.month < b.month
    obtain ⟨hy, hm1, hm12, hd1, hdm⟩ := ha
    obtain ⟨_, hbm1, _, hbd1, _⟩ := hb
    unfold Date.toOrdinal
    rw [← hyeq]
    have h1 : daysBeforeMonth a.year a.month + a.day ≤
        daysBeforeMonth a.year (a.month + 1) := by
      rw [daysBeforeMonth_succ a.year a.month hm1 hm12]; omega
    have h2 : daysBeforeMonth a.year (a.month + 1) ≤ daysBeforeMonth a.year b.month :=
      daysBeforeMonth_mono a.year (by omega) (by omega)
    omega
  · -- same year and month, a.day < b.day
    unfold Date.toOrdinal
    rw [← hyeq, ← hmeq]
    omega

theorem toOrdinal_le_of_le {a b : Date} (ha : a.Valid) (hb : b.Valid)
    (h : Date.Le a b) : a.toOrdinal ≤ b.toOrdinal := by
  rcases h with h | rfl
  · exact le_of_lt (toOrdinal_lt_of_lt ha hb h)
  · exact le_refl _

/-- Converse: ordinal order decides lexicographic order for valid dates. -/
theorem lt_of_toOrdinal_lt {a b : Date} (ha : a.Valid) (hb : b.Valid)
    (h : a.toOrdinal < b.toOrdinal) : Date.Lt a b := by
  rcases date_trichotomy a b with hlt | rfl | hgt
  · exact hlt
  · exact absurd h (lt_irrefl _)
  · exact absurd (toOrdinal_lt_of_lt hb ha hgt) (by omega)

/-- The month count selected by `relativedelta` is the largest `k` with
`addMonths b k ≤ m` (stated as the two bracketing comparisons), and it
is non-negative when `b ≤ m`. -/
theorem relativedelta_months_spec (b m : Date) (hvb : b.Valid) (hvm : m.Valid)
    (hble : Date.Le b m) :
    0 ≤ relativedelta_months b m ∧
    Date.Le (addMonths b (relativedelta_months b m)) m ∧
    Date.Lt m (addMonths b (relativedelta_months b m + 1)) := by
  have hm0 : 12 * ((m.year : ℤ) - b.year) + ((m.month : ℤ) - b.month) =
      mi m - mi b := by unfold mi; ring
  have hmib : 13 ≤ mi b := by
    obtain ⟨h1, h2, _, _, _⟩ := hvb; unfold mi; omega
  have hmim : 13 ≤ mi m := by
    obtain ⟨h1, h2, _, _, _⟩ := hvm; unfold mi; omega
  have hnn : 0 ≤ mi m - mi b := by
    have := mi_le_of_le hvb hvm hble
    omega
  have hkdef : relativedelta_months b m =
      if Date.Lt m (addMonths b (mi m - mi b)) then (mi m - mi b) - 1
      else mi m - mi b := by
    simp only [relativedelta_months]
    rw [if_pos hble, hm0]
  by_cases hov : Date.Lt m (addMonths b (mi m - mi b))
  · -- overshoot: one decrement
    rw [hkdef, if_pos hov]
    have hpos : 1 ≤ mi m - mi b := by
      rcases lt_or_eq_of_le hnn with h | h
      · omega
      · exfalso
        rw [show mi m - mi b = 0 by omega, addMonths_zero b hvb] at hov
        have h1 := toOrdinal_lt_of_lt hvm hvb hov
        have h2 := toOrdinal_le_of_le hvb hvm hble
        omega
    have hvshift : (addMonths b (mi m - mi b - 1)).Valid := by
      apply addMonths_valid b _ hvb
      obtain ⟨_, h2, h3, _, _⟩ := hvb
      unfold mi at hpos hmim ⊢
      omega
    have hmi : mi (addMonths b (mi m - mi b - 1)) = mi m - 1 := by
      rw [addMonths_mi b _ (by unfold mi at hmib ⊢; omega)]
      omega
    refine ⟨by omega, ?_, ?_⟩
    · exact Or.inl (lt_of_mi_lt hvshift hvm (by omega))
    · rw [show mi m - mi b - 1 + 1 = mi m - mi b by ring]
      exact hov
  · -- exact: no decrement
    rw [hkdef, if_neg hov]
    have hvshift : (addMonths b (mi m - mi b)).Valid := by
      apply addMonths_valid b _ hvb
      unfold mi at hmib hmim ⊢
      omega
    have hvshift1 : (addMonths b (mi m - mi b + 1)).Valid := by
      apply addMonths_valid b _ hvb
      unfold mi at hmib hmim ⊢
      omega
    have hmi1 : mi (addMonths b (mi m - mi b + 1)) = mi m + 1 := by
      rw [addMonths_mi b _ (by unfold mi at hmib ⊢; omega)]
      omega
    refine ⟨hnn, ?_, lt_of_mi_lt hvm hvshift1 (by omega)⟩
    rcases date_trichotomy (addMonths b (mi m - mi b)) m with h | h | h
    · exact Or.inl h
    · exact Or.inr h
    · exact absurd h hov

/-- C7: for valid dates with birth ≤ measurement, `calculate_age_in_years`
returns decimal age `y + mo/12 + d/365.25` where `(y, mo, d)` is the true
calendar difference: `0 ≤ mo < 12`, the month shift `12y + mo` is maximal
(shifting birth by it does not pass the measurement date but one more
month would), and `d ≥ 0` is the day count remaining after the month
shift — not a flat day count divided by 365.25.  In particular birth
2020-01-01, measurement 2025-01-01 gives decimal age exactly 5 with
calendar (5, 0, 0), while the flat day count 1827/365.25 is not 5. -/
theorem calculate_age_spec :
    (∀ b m : Date, b.Valid → m.Valid → Date.Le b m →
      ∀ y mo d : ℤ, relativedelta b m = (y, mo, d) →
        calculate_age_in_years b m =
          ((y : ℚ) + (mo : ℚ) / 12 + (d : ℚ) / (365.25 : ℚ), (y, mo, d)) ∧
        0 ≤ mo ∧ mo < 12 ∧ 0 ≤ d ∧
        Date.Le (addMonths b (12 * y + mo)) m ∧
        Date.Lt m (addMonths b (12 * y + mo + 1)) ∧
        d = (m.toOrdinal : ℤ) - ((addMonths b (12 * y + mo)).toOrdinal : ℤ)) ∧
    calculate_age_in_years ⟨2020, 1, 1⟩ ⟨2025, 1, 1⟩ = (5, (5, 0, 0)) ∧
    (((Date.toOrdinal ⟨2025, 1, 1⟩ : ℚ) - (Date.toOrdinal ⟨2020, 1, 1⟩ : ℚ)) /
        (365.25 : ℚ) ≠ 5) := by
  refine ⟨?_, ?_, ?_⟩
  · intro b m hvb hvm hble y mo d h
    obtain ⟨hk0, hkle, hklt⟩ := relativedelta_months_spec b m hvb hvm hble
    have hf := ediv_emod_12 (relativedelta_months b m)
    have hunf : relativedelta b m =
        ((relativedelta_months b m).ediv 12, (relativedelta_months b m).emod 12,
          (m.toOrdinal : ℤ) -
            ((addMonths b (relativedelta_months b m)).toOrdinal : ℤ)) := by
      simp only [relativedelta]
      rw [if_pos hk0, if_pos hk0]
    rw [hunf] at h
    obtain ⟨hy, hmo, hd⟩ : (relativedelta_months b m).ediv 12 = y ∧
        (relativedelta_months b m).emod 12 = mo ∧
        (m.toOrdinal : ℤ) -
          ((addMonths b (relativedelta_months b m)).toOrdinal : ℤ) = d := by
      simpa [Prod.ext_iff] using h
    have hk : 12 * y + mo = relativedelta_months b m := by omega
    have hdn : 0 ≤ d := by
      have := toOrdinal_le_of_le
        (by
          rcases hkle with hlt | heq
          · -- validity of the shifted date, needed for the ordinal step
            exact (by
              apply addMonths_valid b _ hvb
              obtain ⟨h1, h2, h3, _, _⟩ := hvb
              omega)
          · rw [heq]; exact hvm)
        hvm hkle
      omega
    refine ⟨?_, by omega, by omega, hdn, by rw [hk]; exact hkle,
      by rw [hk]; exact hklt, by rw [hk]; omega⟩
    unfold calculate_age_in_years
    rw [hunf]
    simp only [MONTHS_PER_YEAR, DAYS_PER_YEAR]
    rw [hy, hmo]
    have : ((m.toOrdinal : ℤ) -
        ((addMonths b (relativedelta_months b m)).toOrdinal : ℤ)) = d := hd
    rw [this]
    norm_num
  · have hr : relativedelta ⟨2020, 1, 1⟩ ⟨2025, 1, 1⟩ = (5, 0, 0) := by decide
    unfold calculate_age_in_years
    rw [hr]
    simp only [MONTHS_PER_YEAR, DAYS_PER_YEAR]
    norm_num
  · have h1 : Date.toOrdinal ⟨2025, 1, 1⟩ = 739252 := by decide
    have h2 : Date.toOrdinal ⟨2020, 1, 1⟩ = 737425 := by decide
    rw [h1, h2]
    norm_num

/-- C7 witness: the general clause applied to the 2020→2025 instance. -/
theorem calculate_age_spec_witness :
    calculate_age_in_years ⟨2020, 1, 1⟩ ⟨2025, 1, 1⟩ =
      (((5 : ℤ) : ℚ) + ((0 : ℤ) : ℚ) / 12 + ((0 : ℤ) : ℚ) / (365.25 : ℚ),
        (5, 0, 0)) ∧
      (0 : ℤ) ≤ 0 ∧ (0 : ℤ) < 12 :=
  have h := (calculate_age_spec.1 ⟨2020, 1, 1⟩ ⟨2025, 1, 1⟩ (by decide) (by decide)
    (Or.inl (by decide)) 5 0 0 (by decide))
  ⟨h.1, h.2.1, h.2.2.1⟩

end GrowthCalc
